import Mathlib

/-!
Shallow embedding of `monitor.py` from the domain-expiration-monitor
repository.

Timestamps (Python `datetime` values and their ISO-8601 serializations) are
modelled as integer Unix seconds; `timedelta.days` is floor division of the
second difference by 86400, which is exactly `Int.fdiv`.  The JSON state file
is modelled by a `Json` value tree; the text layer (`json.dump`/`json.load`
of the standard library) is external and is represented by the `FileState`
type: the file is absent, or holds unparseable text, or holds a `Json` value.
Python lists of alert keys are Lean `List String`; the `domains` dict is an
insertion-ordered association list `Store`.
-/

/-- Status classification produced by `check_domain` (lines 128-147). -/
inductive Status where
  | unknown
  | expired
  | critical
  | warning
  | ok
deriving DecidableEq, Repr

/-- One monitored domain's record, as stored under its key in the
`domains` dict: fields `added`, `expiration`, `last_checked`, `alerts_sent`
(lines 67-72). -/
structure DomainRecord where
  added : Int
  expiration : Option Int
  lastChecked : Int
  alertsSent : List String
deriving DecidableEq, Repr

/-- The in-memory store: the `self.domains['domains']` dict, an
insertion-ordered mapping from domain key to record. -/
abbrev Store := List (String × DomainRecord)

/-- The dict returned by `check_domain` (lines 129-134 and 149-154):
`status`, `expiration`, `days_until_expiration`. -/
structure CheckResult where
  status : Status
  expirationOut : Option Int
  daysUntilExpiration : Option Int
deriving DecidableEq, Repr

/-- `(expiration - now).days` (line 137): the whole-day difference of two
timestamps in seconds, floored, as Python `timedelta.days` computes it. -/
def daysUntil (expiration now : Int) : Int :=
  (expiration - now).fdiv 86400

/-- The status chain of lines 140-147: `expired` below 0, then `critical`
below 7, then `warning` below 30, else `ok`. -/
def classify (d : Int) : Status :=
  if d < 0 then Status.expired
  else if d < 7 then Status.critical
  else if d < 30 then Status.warning
  else Status.ok

/-- The Expiration Evaluator: the pure part of `check_domain`
(lines 128-154) mapping an optional expiration and the current time to a
status and days-remaining value. -/
def evaluate (expiration : Option Int) (now : Int) : Status × Option Int :=
  match expiration with
  | none => (Status.unknown, none)
  | some e => (classify (daysUntil e now), some (daysUntil e now))

/-- The alert key `f"{alert_days}_days"` of line 223. -/
def alertKey (t : Int) : String :=
  toString t ++ ("_days")

/-- The Alert Deduplicator: the threshold loop of lines 221-229.  Walks the
configured `alert_days` in order; a threshold `t` with
`daysUntil <= t and daysUntil > 0` whose key is absent from `alerts_sent`
fires, appends its key, and breaks; a threshold whose key was already sent
does not break, the loop moves on. -/
def shouldAlert : List Int → Int → List String → Option (String × List String)
  | [], _, _ => none
  | t :: rest, d, sent =>
    if d ≤ t ∧ 0 < d then
      if sent.contains (alertKey t) then
        shouldAlert rest d sent
      else
        some (alertKey t, sent ++ [alertKey t])
    else
      shouldAlert rest d sent

/-- `check_domain` (lines 115-154) acting on a record already fetched from
the store.  `lookup` is the result of `get_expiration_date` (the external
lookup, `None` on failure).  The record's `expiration` is overwritten only
when the lookup succeeded (lines 122-124); `last_checked` is always set to
now (line 126); the returned result is computed from the lookup value, not
from the stored one (lines 128-154). -/
def check_domain (rec : DomainRecord) (lookup : Option Int) (now : Int) :
    DomainRecord × CheckResult :=
  match lookup with
  | none =>
      ({ rec with lastChecked := now },
        { status := Status.unknown, expirationOut := none,
          daysUntilExpiration := none })
  | some e =>
      ({ rec with expiration := some e, lastChecked := now },
        { status := classify (daysUntil e now), expirationOut := some e,
          daysUntilExpiration := some (daysUntil e now) })

/-- `domain.lower().strip()` as performed by `add_domain` (line 58) and
`remove_domain` (line 81): lowercase every character, then drop leading
and trailing whitespace. -/
def normalizeDomain (domain : String) : String :=
  String.mk
    ((((domain.data.map Char.toLower).dropWhile
      Char.isWhitespace).reverse.dropWhile Char.isWhitespace).reverse)

/-- `add_domain` (lines 56-77).  Returns the new store, the number of
`save_domains` calls performed, and whether the duplicate warning was
printed.  A duplicate returns early: no save, store untouched. -/
def add_domain (store : Store) (domain : String) (lookup : Option Int)
    (now : Int) : Store × Nat × Bool :=
  let d := normalizeDomain domain
  let fresh : DomainRecord :=
    { added := now, expiration := lookup, lastChecked := now,
      alertsSent := [] }
  if (store.map Prod.fst).contains d then
    (store, 0, true)
  else
    (store ++ [(d, fresh)], 1, false)

/-- `remove_domain` (lines 79-88).  Returns the new store, the number of
`save_domains` calls performed, and whether the not-found message was
printed.  A present key is deleted and the store saved; an absent key only
prints. -/
def remove_domain (store : Store) (domain : String) : Store × Nat × Bool :=
  let d := normalizeDomain domain
  if (store.map Prod.fst).contains d then
    (store.filter (fun p => !(p.1 == d)), 1, false)
  else
    (store, 0, true)

/-- `send_slack_alert` (lines 156-194).  `transport` is the outcome the
`requests.post` call would have (an `error` models a raised exception); the
surrounding `try`/`except` catches and logs it, so the function itself
always returns normally, and with no webhook configured it returns before
posting. -/
def send_slack_alert (webhook : Option String)
    (transport : Except String Unit) : Except String Unit :=
  match webhook with
  | none => Except.ok ()
  | some _ =>
    match transport with
    | Except.ok () => Except.ok ()
    | Except.error _ => Except.ok ()

/-- Observable effects of one check pass: a fired alert (the console line
plus Slack invocation of lines 225-226), and the single `save_domains`
call of line 240. -/
inductive Effect where
  | notify (domain : String) (daysUntilVal : Int) (expiration : Int)
  | save
deriving DecidableEq, Repr

/-- The per-domain body of the `check_all_domains` loop (lines 204-238):
run `check_domain`, skip alerting when the lookup failed (line 213), else
run the deduplicator on this domain's `alerts_sent` and, on a fire, invoke
the notifier and record the grown set (lines 221-229).  An exception from
the notifier would propagate (`Except.error`) before the set is recorded;
`send_slack_alert` never produces one. -/
def processDomain (thresholds : List Int) (webhook : Option String)
    (transport : String → Except String Unit) (lookup : Option Int)
    (now : Int) (name : String) (rec : DomainRecord) :
    Except String (DomainRecord × List Effect) :=
  let checked := check_domain rec lookup now
  match checked.2.daysUntilExpiration, checked.2.expirationOut with
  | some d, some e =>
    match shouldAlert thresholds d checked.1.alertsSent with
    | some (_, updated) =>
      match send_slack_alert webhook (transport name) with
      | Except.ok () =>
          Except.ok ({ checked.1 with alertsSent := updated },
            [Effect.notify name d e])
      | Except.error msg => Except.error msg
    | none => Except.ok (checked.1, [])
  | _, _ => Except.ok (checked.1, [])

/-- The loop of lines 204-238 over the listed keys, threaded through the
store in order, collecting effects. -/
def runPass (thresholds : List Int) (webhook : Option String)
    (transport : String → Except String Unit)
    (lookups : String → Option Int) (now : Int) :
    Store → Except String (Store × List Effect)
  | [] => Except.ok ([], [])
  | (name, rec) :: rest =>
    match processDomain thresholds webhook transport (lookups name) now
        name rec with
    | Except.error msg => Except.error msg
    | Except.ok (rec', effs) =>
      match runPass thresholds webhook transport lookups now rest with
      | Except.error msg => Except.error msg
      | Except.ok (rest', effs') =>
          Except.ok ((name, rec') :: rest', effs ++ effs')

/-- `check_all_domains` (lines 196-240): an empty store returns early
(lines 198-200) with no save; otherwise every domain is processed and one
`save_domains` happens at the end (line 240). -/
def check_all_domains (thresholds : List Int) (webhook : Option String)
    (transport : String → Except String Unit)
    (lookups : String → Option Int) (now : Int) (store : Store) :
    Except String (Store × List Effect) :=
  if store.isEmpty then Except.ok (store, [])
  else
    match runPass thresholds webhook transport lookups now store with
    | Except.error msg => Except.error msg
    | Except.ok (store', effs) => Except.ok (store', effs ++ [Effect.save])

/-- JSON value trees, standing for the content of `domains.json`.
Timestamps appear as `num` (their ISO strings encode them faithfully). -/
inductive Json where
  | null
  | num (n : Int)
  | str (s : String)
  | arr (elements : List Json)
  | obj (fields : List (String × Json))

/-- Serialize one record to its JSON object, the shape written by
`save_domains` for each domain (lines 67-72). -/
def encodeRecord (r : DomainRecord) : Json :=
  Json.obj [(("added"), Json.num r.added),
    (("expiration"),
      match r.expiration with
      | some e => Json.num e
      | none => Json.null),
    (("last_checked"), Json.num r.lastChecked),
    (("alerts_sent"), Json.arr (r.alertsSent.map Json.str))]

/-- Read back a list of alert keys from a JSON array. -/
def decodeStrings : List Json → Option (List String)
  | [] => some []
  | Json.str s :: rest =>
    match decodeStrings rest with
    | some l => some (s :: l)
    | none => none
  | _ => none

/-- Read back one record from its JSON object. -/
def decodeRecord : Json → Option DomainRecord
  | Json.obj [(("added"), Json.num a), (("expiration"), ex),
      (("last_checked"), Json.num lc), (("alerts_sent"), Json.arr ks)] =>
    match ex, decodeStrings ks with
    | Json.null, some sent => some ⟨a, none, lc, sent⟩
    | Json.num e, some sent => some ⟨a, some e, lc, sent⟩
    | _, _ => none
  | _ => none

/-- Serialize the `domains` mapping entry by entry. -/
def encodeDomains (s : Store) : List (String × Json) :=
  s.map (fun p => (p.1, encodeRecord p.2))

/-- Read back the `domains` mapping entry by entry. -/
def decodeDomains : List (String × Json) → Option Store
  | [] => some []
  | (name, j) :: rest =>
    match decodeRecord j, decodeDomains rest with
    | some r, some s => some ((name, r) :: s)
    | _, _ => none

/-- `save_domains` (lines 51-54): the JSON value `json.dump` writes,
`{"domains": {...}}`. -/
def save_domains (s : Store) : Json :=
  Json.obj [(("domains"), Json.obj (encodeDomains s))]

/-- Reinterpret a loaded JSON file as a typed store. -/
def decodeStoreFile : Json → Option Store
  | Json.obj [(("domains"), Json.obj fields)] => decodeDomains fields
  | _ => none

/-- The state of `domains.json` on disk: absent, present but not valid
JSON, or present with a parsed value. -/
inductive FileState where
  | absent
  | malformed
  | content (j : Json)

/-- `load_domains` (lines 44-49): a missing file yields the empty store
value; unparseable text raises `json.JSONDecodeError` out of `__init__`
(modelled as `Except.error`); otherwise the parsed value is returned. -/
def load_domains : FileState → Except String Json
  | FileState.absent => Except.ok (Json.obj [(("domains"), Json.obj [])])
  | FileState.malformed => Except.error ("JSONDecodeError")
  | FileState.content j => Except.ok j

/-- One command-line invocation (lines 298-307): the argument of `--add`
together with the lookup outcome and clock, `--remove`, `--list`, or
`--check` with its external collaborators. -/
inductive Command where
  | addCmd (domain : String) (lookup : Option Int) (now : Int)
  | removeCmd (domain : String)
  | listCmd
  | checkCmd (lookups : String → Option Int) (now : Int)
      (transport : String → Except String Unit)

/-- Command dispatch on a loaded store: the exit code and the list of file
writes performed (each a serialized store).  `list_domains` never writes;
`add_domain`/`remove_domain` write once exactly when they saved;
`check_all_domains` writes once per `save` effect it emitted, and an
escaped exception would reach `main`'s handler and exit 1. -/
def dispatch (thresholds : List Int) (webhook : Option String) (s : Store) :
    Command → Nat × List Json
  | Command.addCmd d lu now =>
    let r := add_domain s d lu now
    (0, if r.2.1 = 0 then [] else [save_domains r.1])
  | Command.removeCmd d =>
    let r := remove_domain s d
    (0, if r.2.1 = 0 then [] else [save_domains r.1])
  | Command.listCmd => (0, [])
  | Command.checkCmd lu now tr =>
    match check_all_domains thresholds webhook tr lu now s with
    | Except.error _ => (1, [])
    | Except.ok (s', effs) =>
        (0, List.replicate (effs.count Effect.save) (save_domains s'))

/-- `main` (lines 284-312): construct the monitor (which loads the store:
line 34); any exception there or below is caught by the handler of lines
310-312, printing the error and exiting 1 with no write having occurred.
A loaded value that does not have the store shape also makes every command
raise on its first `self.domains['domains']` access, again exit 1 before
any write. -/
def main_run (thresholds : List Int) (webhook : Option String)
    (fs : FileState) (cmd : Command) : Nat × List Json :=
  match load_domains fs with
  | Except.error _ => (1, [])
  | Except.ok j =>
    match decodeStoreFile j with
    | none => (1, [])
    | some s => dispatch thresholds webhook s cmd

/-! ## Helper lemmas -/

theorem shouldAlert_eq_find (ts : List Int) (d : Int) (sent : List String) :
    shouldAlert ts d sent =
      if 0 < d then
        Option.map (fun t => (alertKey t, sent ++ [alertKey t]))
          (ts.find? (fun t => decide (d ≤ t) && !(sent.contains (alertKey t))))
      else none := by
  induction ts with
  | nil => by_cases hd : 0 < d <;> simp [shouldAlert, hd]
  | cons t rest ih =>
    by_cases hd : 0 < d
    · by_cases hdt : d ≤ t
      · by_cases hmem : sent.contains (alertKey t)
        · have hcond : (d ≤ t ∧ 0 < d) := ⟨hdt, hd⟩
          simp only [shouldAlert, if_pos hcond, if_pos hmem, ih, if_pos hd]
          rw [List.find?_cons_of_neg rest (by simp [hdt]; simpa using hmem)]
        · have hcond : (d ≤ t ∧ 0 < d) := ⟨hdt, hd⟩
          simp only [shouldAlert, if_pos hcond, if_neg hmem, if_pos hd]
          rw [List.find?_cons_of_pos rest (by simp [hdt]; simpa using hmem)]
          simp
      · have hcond : ¬ (d ≤ t ∧ 0 < d) := fun h => hdt h.1
        simp only [shouldAlert, if_neg hcond, ih, if_pos hd]
        rw [List.find?_cons_of_neg rest (by simp [hdt])]
    · have hcond : ¬ (d ≤ t ∧ 0 < d) := fun h => hd h.2
      simp only [shouldAlert, if_neg hcond, ih, if_neg hd]

theorem shouldAlert_fired (ts : List Int) (d : Int) (sent : List String)
    (k : String) (s' : List String)
    (h : shouldAlert ts d sent = some (k, s')) :
    sent.contains k = false ∧ s' = sent ++ [k] := by
  induction ts with
  | nil => simp [shouldAlert] at h
  | cons t rest ih =>
    by_cases hcond : (d ≤ t ∧ 0 < d)
    · by_cases hmem : sent.contains (alertKey t)
      · rw [shouldAlert, if_pos hcond, if_pos hmem] at h
        exact ih h
      · rw [shouldAlert, if_pos hcond, if_neg hmem] at h
        have hk : alertKey t = k := by
          have := congrArg (fun o => Option.map Prod.fst o) h
          simpa using this
        have hs : s' = sent ++ [alertKey t] := by
          have := congrArg (fun o => Option.map Prod.snd o) h
          simp at this
          exact this.symm
        subst hk
        refine ⟨by simpa using hmem, by simpa using hs⟩
    · rw [shouldAlert, if_neg hcond] at h
      exact ih h

theorem send_slack_alert_ok (webhook : Option String)
    (transport : Except String Unit) :
    send_slack_alert webhook transport = Except.ok () := by
  cases webhook with
  | none => rfl
  | some url =>
    cases transport with
    | ok u => cases u; rfl
    | error msg => rfl

theorem check_domain_alertsSent (rec : DomainRecord) (lookup : Option Int)
    (now : Int) :
    (check_domain rec lookup now).1.alertsSent = rec.alertsSent := by
  cases lookup <;> rfl

theorem processDomain_spec (thresholds : List Int) (webhook : Option String)
    (transport : String → Except String Unit) (lookup : Option Int)
    (now : Int) (name : String) (rec : DomainRecord) :
    ∃ rec' effs,
      processDomain thresholds webhook transport lookup now name rec =
          Except.ok (rec', effs) ∧
        (∃ tail, rec'.alertsSent = rec.alertsSent ++ tail) ∧
        effs.count Effect.save = 0 := by
  unfold processDomain
  cases lookup with
  | none =>
    exact ⟨(check_domain rec none now).1, [], rfl,
      ⟨[], by simp [check_domain]⟩, rfl⟩
  | some e =>
    rcases hsa : shouldAlert thresholds (daysUntil e now)
        (check_domain rec (some e) now).1.alertsSent with _ | ⟨k, updated⟩
    · refine ⟨(check_domain rec (some e) now).1, [], ?_,
        ⟨[], by simp [check_domain_alertsSent]⟩, rfl⟩
      simp only [check_domain] at hsa ⊢
      rw [hsa]
    · have hfired := shouldAlert_fired _ _ _ _ _ hsa
      refine ⟨{ (check_domain rec (some e) now).1 with alertsSent := updated },
        [Effect.notify name (daysUntil e now) e], ?_, ⟨[k], ?_⟩, rfl⟩
      · simp only [check_domain] at hsa ⊢
        rw [hsa, send_slack_alert_ok]
      · rw [show ({ (check_domain rec (some e) now).1 with
            alertsSent := updated } : DomainRecord).alertsSent =
            updated from rfl,
          hfired.2, check_domain_alertsSent]

theorem processDomain_transport (thresholds : List Int)
    (webhook : Option String) (t1 t2 : String → Except String Unit)
    (lookup : Option Int) (now : Int) (name : String) (rec : DomainRecord) :
    processDomain thresholds webhook t1 lookup now name rec =
      processDomain thresholds webhook t2 lookup now name rec := by
  unfold processDomain
  rw [send_slack_alert_ok, send_slack_alert_ok]

theorem runPass_spec (thresholds : List Int) (webhook : Option String)
    (transport : String → Except String Unit)
    (lookups : String → Option Int) (now : Int) (store : Store) :
    ∃ out, runPass thresholds webhook transport lookups now store =
        Except.ok out ∧
      List.Forall₂
        (fun p q => p.1 = q.1 ∧
          ∃ tail, q.2.alertsSent = p.2.alertsSent ++ tail)
        store out.1 ∧
      out.2.count Effect.save = 0 := by
  induction store with
  | nil => exact ⟨([], []), rfl, List.Forall₂.nil, rfl⟩
  | cons hd tl ih =>
    obtain ⟨rec', effs, hpd, hgrow, hcnt⟩ :=
      processDomain_spec thresholds webhook transport (lookups hd.1) now
        hd.1 hd.2
    obtain ⟨out, hrp, hfa, hcnt'⟩ := ih
    refine ⟨((hd.1, rec') :: out.1, effs ++ out.2), ?_, ?_, ?_⟩
    · rw [show (hd : String × DomainRecord) = (hd.1, hd.2) from rfl,
        runPass, hpd, hrp]
    · exact List.Forall₂.cons ⟨rfl, hgrow⟩ hfa
    · rw [List.count_append, hcnt, hcnt']

theorem runPass_transport (thresholds : List Int) (webhook : Option String)
    (t1 t2 : String → Except String Unit) (lookups : String → Option Int)
    (now : Int) (store : Store) :
    runPass thresholds webhook t1 lookups now store =
      runPass thresholds webhook t2 lookups now store := by
  induction store with
  | nil => rfl
  | cons hd tl ih =>
    rw [show (hd : String × DomainRecord) = (hd.1, hd.2) from rfl,
      runPass, runPass,
      processDomain_transport thresholds webhook t1 t2, ih]

theorem decodeStrings_encode (l : List String) :
    decodeStrings (l.map Json.str) = some l := by
  induction l with
  | nil => rfl
  | cons hd tl ih => rw [List.map_cons, decodeStrings, ih]

theorem decodeRecord_encode (r : DomainRecord) :
    decodeRecord (encodeRecord r) = some r := by
  rcases r with ⟨a, e, lc, sent⟩
  cases e <;>
    simp [encodeRecord, decodeRecord, decodeStrings_encode]

theorem decodeDomains_encode (s : Store) :
    decodeDomains (encodeDomains s) = some s := by
  induction s with
  | nil => rfl
  | cons hd tl ih =>
    rw [show (hd : String × DomainRecord) = (hd.1, hd.2) from rfl,
      encodeDomains, List.map_cons, decodeDomains]
    rw [show List.map (fun p => (p.1, encodeRecord p.2)) tl =
      encodeDomains tl from rfl, ih, decodeRecord_encode]

/-! ## Claims -/

/-- C1: for every thresholds list, daysUntil value, and already-sent set,
the alert decision fires nothing unless `0 < daysUntil`, and otherwise
fires exactly the first threshold `t` in the given order with
`daysUntil ≤ t` whose key `"{t}_days"` is not already in the sent set,
appending that key; at most one alert fires, and none when no threshold
qualifies. -/
theorem C1_dedup_first_qualifying (thresholds : List Int) (d : Int)
    (alreadySent : List String) :
    shouldAlert thresholds d alreadySent =
      if 0 < d then
        Option.map (fun t => (alertKey t, alreadySent ++ [alertKey t]))
          (thresholds.find? (fun t =>
            decide (d ≤ t) && !(alreadySent.contains (alertKey t))))
      else none :=
  shouldAlert_eq_find thresholds d alreadySent

/-- C2: the evaluator maps an absent expiration to `unknown` with no day
count; otherwise `daysUntil` is the floored whole-day difference (6 days
23 hours counts as 6) and the status classification has exact boundaries
expired/critical at -1/0, critical/warning at 6/7, warning/ok at 29/30. -/
theorem C2_evaluate_boundaries (e n d : Int) :
    evaluate none n = (Status.unknown, none) ∧
    evaluate (some e) n = (classify (daysUntil e n), some (daysUntil e n)) ∧
    daysUntil (n + (6 * 86400 + 23 * 3600)) n = 6 ∧
    (classify d = Status.expired ↔ d < 0) ∧
    (classify d = Status.critical ↔ 0 ≤ d ∧ d < 7) ∧
    (classify d = Status.warning ↔ 7 ≤ d ∧ d < 30) ∧
    (classify d = Status.ok ↔ 30 ≤ d) := by
  refine ⟨rfl, rfl, ?_, ?_, ?_, ?_, ?_⟩
  · show (n + (6 * 86400 + 23 * 3600) - n).fdiv 86400 = 6
    rw [show n + (6 * 86400 + 23 * 3600) - n = 601200 from by ring]
    decide
  all_goals unfold classify
  all_goals split_ifs <;> simp_all <;> omega

/-- C3 counterexample: a record with a stored expiration 10 days out and a
failed lookup keeps the stored expiration, yet the produced status is
`unknown`, not what the evaluator yields on the record's (retained)
updated expiration value. -/
theorem C3_evaluator_input_counterexample :
    (check_domain ⟨0, some 864000, 0, []⟩ none 0).1.expiration =
      some 864000 ∧
    (check_domain ⟨0, some 864000, 0, []⟩ none 0).2.status =
      Status.unknown ∧
    (check_domain ⟨0, some 864000, 0, []⟩ none 0).2.status ≠
      (evaluate
        ((check_domain ⟨0, some 864000, 0, []⟩ none 0).1.expiration) 0).1 := by
  refine ⟨rfl, rfl, ?_⟩
  decide

/-- C3 (amended): one check sets the record's `lastChecked` to now
unconditionally, overwrites `expiration` only when the lookup succeeded
(retaining the stored value on failure), and produces status and daysUntil
by running the evaluator on the lookup result (so a failed lookup yields
`unknown`/none regardless of the retained stored expiration). -/
theorem C3_check_updates_amended (rec : DomainRecord) (lookup : Option Int)
    (now : Int) :
    (check_domain rec lookup now).1.lastChecked = now ∧
    (check_domain rec lookup now).1.expiration =
      (match lookup with
       | some e => some e
       | none => rec.expiration) ∧
    ((check_domain rec lookup now).2.status,
      (check_domain rec lookup now).2.daysUntilExpiration) =
      evaluate lookup now := by
  cases lookup <;> exact ⟨rfl, rfl, rfl⟩

/-- C4: feeding the sent set produced by one firing call back into a second
call never fires the same threshold key twice: the first fired key was not
in the input set, lands in the output set, and any key the second call
fires differs from it. -/
theorem C4_no_double_fire (thresholds : List Int) (d : Int)
    (sent : List String) (k1 : String) (s1 : List String)
    (h1 : shouldAlert thresholds d sent = some (k1, s1)) (k2 : String)
    (s2 : List String) (h2 : shouldAlert thresholds d s1 = some (k2, s2)) :
    k1 ∉ sent ∧ k1 ∈ s1 ∧ k2 ≠ k1 := by
  obtain ⟨hc1, hs1⟩ := shouldAlert_fired _ _ _ _ _ h1
  obtain ⟨hc2, hs2⟩ := shouldAlert_fired _ _ _ _ _ h2
  have hk1 : k1 ∉ sent := by simp at hc1; exact hc1
  have hmem : k1 ∈ s1 := by rw [hs1]; simp
  have hk2 : k2 ∉ s1 := by simp at hc2; exact hc2
  exact ⟨hk1, hmem, fun h => hk2 (h ▸ hmem)⟩

/-- C4 witness: thresholds [30,14,7,1] at daysUntil 5 from the empty sent
set fire `30_days` first and `14_days` second, never `30_days` twice. -/
theorem C4_no_double_fire_witness :
    ("30_days" : String) ∉ ([] : List String) ∧
    ("30_days" : String) ∈ [("30_days" : String)] ∧
    ("14_days" : String) ≠ ("30_days" : String) :=
  C4_no_double_fire [30, 14, 7, 1] 5 [] ("30_days") [("30_days")]
    (by decide) ("14_days") [("30_days"), ("14_days")] (by decide)

/-- C5: a check pass always completes, preserves the domain keys in order,
and only ever extends each domain's alertsSent list: every output record's
alertsSent is the input one followed by some (possibly empty) tail, for
any lookup outcomes, including a renewal that moves the expiration later. -/
theorem C5_alerts_monotone (thresholds : List Int) (webhook : Option String)
    (transport : String → Except String Unit)
    (lookups : String → Option Int) (now : Int) (store : Store) :
    ∃ out, check_all_domains thresholds webhook transport lookups now store =
        Except.ok out ∧
      List.Forall₂
        (fun p q => p.1 = q.1 ∧
          ∃ tail, q.2.alertsSent = p.2.alertsSent ++ tail)
        store out.1 := by
  unfold check_all_domains
  rcases store with _ | ⟨hd, tl⟩
  · exact ⟨([], []), by simp, List.Forall₂.nil⟩
  · obtain ⟨out, hrp, hfa, _⟩ :=
      runPass_spec thresholds webhook transport lookups now (hd :: tl)
    refine ⟨(out.1, out.2 ++ [Effect.save]), ?_, hfa⟩
    simp only [List.isEmpty_cons, Bool.false_eq_true, if_false, hrp]

/-- C6: serializing any typed store to the durable file and loading it back
parses successfully and reproduces the identical store: same keys in
order, same timestamps, same alertsSent lists. -/
theorem C6_store_round_trip (s : Store) :
    load_domains (FileState.content (save_domains s)) =
      Except.ok (save_domains s) ∧
    decodeStoreFile (save_domains s) = some s := by
  refine ⟨rfl, ?_⟩
  show decodeDomains (encodeDomains s) = some s
  exact decodeDomains_encode s

/-- C7 counterexample: a pass over an empty store returns early and never
persists, so it is not the case that every pass saves exactly once. -/
theorem C7_empty_store_counterexample :
    ¬ ∃ out,
      check_all_domains [30, 14, 7, 1] none (fun _ => Except.ok ())
          (fun _ => none) 0 [] = Except.ok out ∧
        out.2.count Effect.save = 1 := by
  rintro ⟨out, h1, h2⟩
  rw [show check_all_domains [30, 14, 7, 1] none (fun _ => Except.ok ())
      (fun _ => none) 0 [] =
      Except.ok ((([] : Store), ([] : List Effect))) from rfl] at h1
  injection h1 with h
  subst h
  simp at h2

/-- C7 (amended): over a nonempty store a check pass is wholly unaffected
by the notifier transport outcome (a transport error is swallowed, the
grown alertsSent set is still recorded), the pass completes normally, and
it performs exactly one save; an empty store returns early with no save. -/
theorem C7_notifier_independent_single_save (thresholds : List Int)
    (webhook : Option String) (t1 t2 : String → Except String Unit)
    (lookups : String → Option Int) (now : Int) (store : Store)
    (h : store ≠ []) :
    check_all_domains thresholds webhook t1 lookups now store =
      check_all_domains thresholds webhook t2 lookups now store ∧
    ∃ out, check_all_domains thresholds webhook t1 lookups now store =
        Except.ok out ∧ out.2.count Effect.save = 1 := by
  constructor
  · unfold check_all_domains
    rw [runPass_transport thresholds webhook t1 t2]
  · obtain ⟨out, hrp, _, hcnt⟩ :=
      runPass_spec thresholds webhook t1 lookups now store
    refine ⟨(out.1, out.2 ++ [Effect.save]), ?_, ?_⟩
    · unfold check_all_domains
      rw [if_neg (by simpa [List.isEmpty_iff] using h), hrp]
    · rw [show ((out.1, out.2 ++ [Effect.save]) :
          Store × List Effect).2 = out.2 ++ [Effect.save] from rfl,
        List.count_append, hcnt]
      rfl

/-- C7 witness: one monitored domain five days from expiring, a failing
transport and a succeeding one give identical passes with one save. -/
theorem C7_notifier_independent_single_save_witness :
    (check_all_domains [30] (some ("hook")) (fun _ => Except.error ("down"))
        (fun _ => some 432000) 0
        [(("example.com"), ⟨0, none, 0, []⟩)] =
      check_all_domains [30] (some ("hook")) (fun _ => Except.ok ())
        (fun _ => some 432000) 0
        [(("example.com"), ⟨0, none, 0, []⟩)]) ∧
    ∃ out, check_all_domains [30] (some ("hook"))
        (fun _ => Except.error ("down")) (fun _ => some 432000) 0
        [(("example.com"), ⟨0, none, 0, []⟩)] =
        Except.ok out ∧ out.2.count Effect.save = 1 :=
  C7_notifier_independent_single_save [30] (some ("hook"))
    (fun _ => Except.error ("down")) (fun _ => Except.ok ())
    (fun _ => some 432000) 0 [(("example.com"), ⟨0, none, 0, []⟩)]
    (by simp)

/-- C8: adding stores the domain under its lowercased, trimmed key (the
normalization sends "Example.COM " to "example.com"); adding a key already
present reports the duplicate and returns with the store untouched and no
save, while a fresh key appends a new record whose added timestamp is now. -/
theorem C8_add_normalizes_and_reports_duplicate (store : Store)
    (domain : String) (lookup : Option Int) (now : Int) :
    normalizeDomain ("Example.COM ") = ("example.com") ∧
    ((store.map Prod.fst).contains (normalizeDomain domain) = true →
      add_domain store domain lookup now = (store, 0, true)) ∧
    ((store.map Prod.fst).contains (normalizeDomain domain) = false →
      add_domain store domain lookup now =
        (store ++ [(normalizeDomain domain,
          (⟨now, lookup, now, []⟩ : DomainRecord))], 1, false)) := by
  refine ⟨by decide, ?_, ?_⟩
  · intro h
    simp only [add_domain]
    rw [if_pos h]
  · intro h
    simp only [add_domain]
    rw [if_neg (by rw [h]; exact Bool.false_ne_true)]

/-- C8 witness: adding "Example.COM " to a store already holding
"example.com" is a reported no-op, and adding it to the empty store at
time 5 appends the normalized key with added timestamp 5. -/
theorem C8_add_normalizes_and_reports_duplicate_witness :
    add_domain [(("example.com"), (⟨0, none, 0, []⟩ : DomainRecord))]
        ("Example.COM ") none 5 =
      ([(("example.com"), (⟨0, none, 0, []⟩ : DomainRecord))], 0, true) ∧
    add_domain ([] : Store) ("Example.COM ") none 5 =
      (([] : Store) ++ [(normalizeDomain ("Example.COM "),
        (⟨5, none, 5, []⟩ : DomainRecord))], 1, false) :=
  ⟨(C8_add_normalizes_and_reports_duplicate
      [(("example.com"), ⟨0, none, 0, []⟩)] ("Example.COM ") none 5).2.1
      (by decide),
    (C8_add_normalizes_and_reports_duplicate ([] : Store) ("Example.COM ")
      none 5).2.2 (by decide)⟩

/-- C9: when the durable state file holds malformed content, every
command-line invocation exits with code 1 and performs no file write: the
malformed file is never overwritten. -/
theorem C9_malformed_store_fails_fast (thresholds : List Int)
    (webhook : Option String) (cmd : Command) :
    main_run thresholds webhook FileState.malformed cmd = (1, []) := rfl

/-- C10: removing a domain whose normalized name is not a stored key
leaves the store exactly as it was, performs zero saves, and only reports
not-found. -/
theorem C10_remove_absent_is_noop (store : Store) (domain : String)
    (h : (store.map Prod.fst).contains (normalizeDomain domain) = false) :
    remove_domain store domain = (store, 0, true) := by
  simp only [remove_domain]
  rw [if_neg (by rw [h]; exact Bool.false_ne_true)]

/-- C10 witness: removing "other.org" from a store holding only
"example.com" changes nothing and saves nothing. -/
theorem C10_remove_absent_is_noop_witness :
    remove_domain [(("example.com"), (⟨0, none, 0, []⟩ : DomainRecord))]
        ("other.org") =
      ([(("example.com"), (⟨0, none, 0, []⟩ : DomainRecord))], 0, true) :=
  C10_remove_absent_is_noop
    [(("example.com"), ⟨0, none, 0, []⟩)] ("other.org") (by decide)
